import Mathlib

/-!
Verification of the Trac2Kanban plugin (`trac2kanban/__init__.py`) against its
natural-language specification.  The Python code is shallowly embedded below:
pure data manipulation becomes Lean functions, Python exceptions become
`Except PyErr`, and every outbound HTTP interaction is parameterised by the
response the remote service would return (the transport itself is owned by the
host environment and out of scope).
-/

namespace Trac2Kanban

/-- The kinds of Python runtime errors the plugin code can raise. -/
inductive PyErr where
  | keyError
  | indexError
  | valueError
  | typeError
  | attributeError
  deriving DecidableEq, Repr

/-- One Python dict assignment `d[k] = v` on an insertion-ordered dict:
an existing key is overwritten in place, a new key is appended. -/
def dinsert (d : List (String × String)) (k v : String) : List (String × String) :=
  if d.any (fun p => p.1 = k) then
    d.map (fun p => if p.1 = k then (k, v) else p)
  else
    d ++ [(k, v)]

/-- Python `dict(pairs)`: start from the empty dict and insert the pairs
left to right. -/
def pyDict (ps : List (String × String)) : List (String × String) :=
  ps.foldl (fun d p => dinsert d p.1 p.2) []

/-- Lookup in the dict model; `none` models both `k not in d` and the
`KeyError` case of `d[k]`. -/
def pyLookup (d : List (String × String)) (k : String) : Option String :=
  (d.find? (fun p => p.1 = k)).map (fun p => p.2)

/-- Lookup where the key is a Python value that may be `None` (`None` is never
a key of a dict whose keys are strings). -/
def pyLookupOpt (d : List (String × String)) (k : Option String) : Option String :=
  match k with
  | none => none
  | some s => pyLookup d s

/-- Python list indexing `xs[i]`: a negative index counts from the end,
an out-of-range index raises `IndexError`. -/
def pyIndex {α : Type} (xs : List α) (i : Int) : Except PyErr α :=
  let j : Int := if i < 0 then (xs.length : Int) + i else i
  if 0 ≤ j then
    match xs.get? j.toNat with
    | some x => .ok x
    | none => .error .indexError
  else
    .error .indexError

/-- The `trac2kanban` configuration section (plus the host key
`trac.base_url`), one typed field per key the code reads: `get` keys as
`String`, `getlist` keys as `List String`.  `kanban_lane_position` is stored
already passed through `int(...)` (line 121); the string-to-int parse itself
is host-side and not modelled. -/
structure Config where
  permission : String
  kanban_base_url : String
  trac_path_kanban : String
  trac_path_ticket : String
  trac_teams : List String
  kanban_boards : List String
  kanban_lane_position : Int
  kanban_card_type : List String
  trac_priorities : List String
  kanban_priorities : List String
  trac_priority_field : String
  kanban_auth_user : String
  kanban_auth_password : String
  trac_base_url : String
  deriving DecidableEq, Repr

/-- A Trac ticket as the plugin sees it: integer id, the `exists` flag, and
the field mapping.  Trac's `ticket[name]` returns `values.get(name)`, i.e.
`None` rather than an error for an absent field, modelled by `tfield`. -/
structure Ticket where
  id : Int
  tExists : Bool
  fields : List (String × String)
  deriving DecidableEq, Repr

/-- `ticket[name]` (Trac returns `None` for an unknown field name). -/
def tfield (t : Ticket) (name : String) : Option String :=
  ((t.fields.find? (fun p => p.1 = name)).map (fun p => p.2))

/-- An outbound HTTP request as issued by `LeanKitService.call`. -/
structure HttpReq where
  url : String
  method : String
  data : Option String
  deriving DecidableEq, Repr

/-- The response the remote service hands back to `LeanKitService.call`:
`resp['status']` (a string in httplib2) and the raw body. -/
structure HttpResp where
  status : String
  body : String
  deriving DecidableEq, Repr

/-- Debug-log events emitted by `LeanKitService.call`. -/
inductive LogEvent where
  | callHeader (url method : String) (data : Option String)
  | unauthorized
  | responseOk (status body : String)
  deriving DecidableEq, Repr

/-- The status-dependent branch of the logging in `LeanKitService.call`
(lines 198-202): `401` logs the unauthorized message, `200` logs the
response and raw content, anything else logs nothing extra. -/
def statusLogs (resp : HttpResp) : List LogEvent :=
  if resp.status = "401" then [LogEvent.unauthorized]
  else if resp.status = "200" then [LogEvent.responseOk resp.status resp.body]
  else []

/-- Result of `LeanKitService.call`: the debug log lines and the decoded
body. -/
structure CallResult (α : Type) where
  logs : List LogEvent
  content : α
  deriving Repr

/-- `LeanKitService.call` (lines 186-204): logs the request, performs the
HTTP exchange (the response is a parameter), branches only for logging on
the status, then unconditionally runs `simplejson.loads` on the body and
returns the result.  The JSON decoder is a parameter `decode` since the
JSON grammar itself is owned by `simplejson`. -/
def call {α : Type} (decode : String → α) (url method : String)
    (data : Option String) (resp : HttpResp) : CallResult α :=
  { logs := LogEvent.callHeader url method data :: statusLogs resp
    content := decode resp.body }

/-- The card payload built by `LeanKitService.create_card` (lines 169-184),
one typed field per JSON key. -/
structure Card where
  Title : Option String
  Description : Option String
  TypeId : Option Int
  Priority : String
  Size : Nat
  IsBlocked : Bool
  BlockReason : String
  DueDate : Option String
  ExternalSystemName : String
  ExternalSystemUrl : String
  Tags : String
  ClassOfServiceId : Option Int
  ExternalCardID : Int
  AssignedUserIds : List Int
  deriving DecidableEq, Repr

/-- `dict(zip(trac_teams, kanban_boards))` as built in
`LeanKitService.get_board` (lines 156-157) and `Board.__init__`
(lines 107-108). -/
def teamBoards (cfg : Config) : List (String × String) :=
  pyDict (cfg.trac_teams.zip cfg.kanban_boards)

/-- `dict(zip(trac_priorities, kanban_priorities))` as built in
`LeanKitService.create_card` (lines 166-167). -/
def prioritiesMap (cfg : Config) : List (String × String) :=
  pyDict (cfg.trac_priorities.zip cfg.kanban_priorities)

/-- `LeanKitService.create_card` (lines 162-184): a pure transformation of
the ticket into a card payload.  The only failure is the dict lookup
`priorities[ticket[priority_field]]`, a `KeyError` when the ticket's
priority value is not a key.  The second component is the list of HTTP
requests issued: the method body contains no `self.call`, so it is `[]`. -/
def create_card (cfg : Config) (t : Ticket) : Except PyErr Card × List HttpReq :=
  (match pyLookupOpt (prioritiesMap cfg) (tfield t cfg.trac_priority_field) with
   | none => .error .keyError
   | some kp => .ok
      { Title := tfield t "summary"
        Description := tfield t "description"
        TypeId := none
        Priority := kp
        Size := 1
        IsBlocked := false
        BlockReason := ""
        DueDate := none
        ExternalSystemName := "Trac"
        ExternalSystemUrl :=
          cfg.trac_base_url ++ "/" ++ cfg.trac_path_ticket ++ "/" ++ toString t.id
        Tags := ""
        ClassOfServiceId := none
        ExternalCardID := t.id
        AssignedUserIds := [] },
   [])

/-- One lane of the `GetBoardIdentifiers` reply. -/
structure Lane where
  Id : Int
  deriving DecidableEq, Repr

/-- One card type of the `GetBoardIdentifiers` reply. -/
structure CardType where
  Id : Int
  Name : String
  deriving DecidableEq, Repr

/-- `ReplyData[i]` of the `GetBoardIdentifiers` reply. -/
structure BoardData where
  Lanes : List Lane
  CardTypes : List CardType
  deriving DecidableEq, Repr

/-- The decoded `GetBoardIdentifiers` reply. -/
structure BIResp where
  ReplyData : List BoardData
  deriving DecidableEq, Repr

/-- `Board._parse_info` (lines 119-125): the lane at the configured
(zero-based, possibly negative — Python indexing) position, followed by the
ids of the card types whose name is in the configured list. -/
def parse_info (cfg : Config) (data : BIResp) : Except PyErr (List Int) := do
  let rd ← pyIndex data.ReplyData 0
  let lane ← pyIndex rd.Lanes cfg.kanban_lane_position
  .ok (lane.Id :: (rd.CardTypes.filter (fun c => c.Name ∈ cfg.kanban_card_type)).map
        (fun c => c.Id))

/-- A resolved board (`Board` instance fields after `__init__`). -/
structure Board where
  board_id : String
  lane_id : Int
  card_type_id : Int
  deriving DecidableEq, Repr

/-- `Board.__init__` (lines 104-110): rebuilds the team-to-board dict, looks
up the board id (`KeyError` when the name is absent), fetches the board
identifiers (`resp` is the decoded reply to that one GET) and unpacks
`self.lane_id, self.card_type_id = self._get_info()` — a `ValueError`
unless `_get_info` returned exactly two values. -/
def Board.init (cfg : Config) (board_name : String) (resp : BIResp) :
    Except PyErr Board := do
  let bid ← match pyLookup (teamBoards cfg) board_name with
    | some b => Except.ok b
    | none => Except.error PyErr.keyError
  let info ← parse_info cfg resp
  match info with
  | [l, t] => .ok { board_id := bid, lane_id := l, card_type_id := t }
  | _ => .error .valueError

/-- `LeanKitService.get_board` (lines 154-160): `None` when the name is not a
key of `dict(zip(trac_teams, kanban_boards))`, otherwise the result of
constructing a `Board` (which may itself raise).  The name may be the Python
`None` (a ticket without a `team` field), which is never a key. -/
def get_board (cfg : Config) (board_name : Option String) (resp : BIResp) :
    Option (Except PyErr Board) :=
  match board_name with
  | none => none
  | some n =>
    if (pyLookup (teamBoards cfg) n).isSome then some (Board.init cfg n resp)
    else none

/-- The POST produced by `Board.add_card` (lines 127-135): the request URL
and the payload after `card["TypeId"] = self.card_type_id`.  The JSON
serialisation and its Content-Length header are not modelled; the payload is
kept structured. -/
structure SentCard where
  url : String
  payload : Card
  deriving DecidableEq, Repr

/-- `Board.add_card` (lines 127-135): overwrites the payload's `TypeId` with
the board's resolved card-type id, then POSTs it to the board's lane at the
given position (default 0). -/
def add_card (b : Board) (base_url : String) (card : Card) (position : Int := 0) :
    SentCard :=
  let card' := { card with TypeId := some b.card_type_id }
  { url := base_url ++ "/Kanban/Api/Board/" ++ b.board_id ++ "/AddCard/Lane/" ++
      toString b.lane_id ++ "/Position/" ++ toString position
    payload := card' }

/-- The decoded `GetCardByExternalId` reply. -/
structure CardReply where
  ReplyCode : Int
  deriving DecidableEq, Repr

/-- `Board.get_card_url` (lines 137-144): the first component is the URL of
the GET issued (it embeds the external id), the second the returned value —
the board-level view URL when `ReplyCode == 200`, `None` otherwise. -/
def get_card_url (b : Board) (base_url : String) (external_id : Int)
    (reply : CardReply) : String × Option String :=
  (base_url ++ "/Kanban/Api/Board/" ++ b.board_id ++ "/GetCardByExternalId/" ++
     toString external_id,
   if reply.ReplyCode = 200 then some (base_url ++ "/Boards/View/" ++ b.board_id)
   else none)

/-- Result of the template-stream filter: the stream passed through
unchanged, or the stream with the anchor `tag.a(label, href=url)` inserted
after the description div. -/
inductive FStream (α : Type) where
  | unchanged (s : α)
  | withButton (s : α) (label : String) (href : String)
  deriving DecidableEq, Repr

/-- `Trac2KanbanPlugin._kanban_form` (lines 49-58): label and href of the
anchor — "Baby on Board" with the existing card's URL when the board reports
one, else "Kanbanize!" with `<trac_path_kanban>/<ticket id>`. -/
def kanban_form (cfg : Config) (b : Board) (t : Ticket) (cardReply : CardReply) :
    String × String :=
  match (get_card_url b cfg.kanban_base_url t.id cardReply).2 with
  | some url => ("Baby on Board", url)
  | none => ("Kanbanize!", cfg.trac_path_kanban ++ "/" ++ toString t.id)

/-- `Trac2KanbanPlugin.filter_stream` (lines 33-47).  Host-owned inputs are
parameters: the template filename, the ticket from the render data (`none`
models a missing `ticket` key), the result of the permission membership
test, and the stream.  `biResp` and `cardReply` are the decoded replies to
the two service calls the flow can make. -/
def filter_stream {α : Type} (cfg : Config) (filename : String)
    (tickOpt : Option Ticket) (hasPerm : Bool) (stream : α) (biResp : BIResp)
    (cardReply : CardReply) : Except PyErr (FStream α) :=
  if filename ≠ "ticket.html" then .ok (.unchanged stream)
  else
    match tickOpt with
    | none => .ok (.unchanged stream)
    | some t =>
      if !t.tExists || !hasPerm then .ok (.unchanged stream)
      else
        match get_board cfg (tfield t "team") biResp with
        | none => .ok (.unchanged stream)
        | some (.error e) => .error e
        | some (.ok b) =>
          let lu := kanban_form cfg b t cardReply
          .ok (.withButton stream lu.1 lu.2)

/-! ### A Python `re` subset

`Trac2KanbanPlugin._parse_ticket_id` builds the pattern
`'^%s/(?P<ticket_id>\d+)$' % trac_path_kanban` — the configured path is
spliced into the regex unescaped — and runs `re.match` on the request path.
To embed that faithfully the pattern string is compiled and executed here by
a small engine for the subset of Python regex syntax the plugin can
exercise with reasonable configurations: literal characters, escaped
punctuation, `\d`, `.`, `^`, `$`, the quantifiers `*` `+` `?`, and
non-nested (possibly named) capturing groups.  Constructs outside the
subset (classes, repetition braces, alternation, other escapes, nested or
non-capturing groups, quantified quantifiers) are reported as a compile
error.  Matching is backtracking and greedy, like Python's; `$` accepts the
end of the string or the position just before a final newline, like
Python's. -/

/-- Regex AST.  A `grp` node carries its open-order (0-based) index. -/
inductive Re where
  | eps : Re
  | lit : Char → Re
  | anyc : Re
  | dcls : Re
  | seq : Re → Re → Re
  | alt : Re → Re → Re
  | star : Re → Re
  | grp : Nat → Re → Re
  | bol : Re
  | eol : Re
  deriving DecidableEq, Repr

/-- Right-nested sequencing of a list of regexes. -/
def buildSeq (l : List Re) : Re := l.foldr Re.seq Re.eps

/-- Parser mode: plain scanning, after a backslash, after `(`, after `(?`,
after `(?P`, or inside a group name `(?P<...`. -/
inductive PMode where
  | norm : PMode
  | esc : PMode
  | par : PMode
  | parQ : PMode
  | parQP : PMode
  | gname : PMode
  deriving DecidableEq, Repr

/-- Parser state: mode, the saved outer sequence and group index while
inside a group (group nesting is not supported), the current sequence in
reverse, and the next group index. -/
structure PSt where
  mode : PMode
  outer : Option (List Re × Nat)
  cur : List Re
  nextg : Nat
  deriving DecidableEq, Repr

/-- Can this atom take a postfix quantifier? -/
def quantifiable : Re → Bool
  | .lit _ => true
  | .anyc => true
  | .dcls => true
  | .grp _ _ => true
  | _ => false

/-- Apply a postfix quantifier to the most recent atom. -/
def pQuant (st : PSt) (f : Re → Re) : Except String PSt :=
  match st.cur with
  | [] => .error "nothing to repeat"
  | a :: rest =>
    if quantifiable a then .ok { st with cur := f a :: rest }
    else .error "unsupported repeat"

/-- Handle one character in plain scanning mode. -/
def handleNorm (st : PSt) (c : Char) : Except String PSt :=
  if c = '\\' then .ok { st with mode := .esc }
  else if c = '(' then
    match st.outer with
    | some _ => .error "nested group unsupported"
    | none => .ok { st with mode := .par }
  else if c = ')' then
    match st.outer with
    | none => .error "unbalanced parenthesis"
    | some (saved, gi) =>
      .ok { st with outer := none, cur := Re.grp gi (buildSeq st.cur.reverse) :: saved }
  else if c = '^' then .ok { st with cur := Re.bol :: st.cur }
  else if c = '$' then .ok { st with cur := Re.eol :: st.cur }
  else if c = '.' then .ok { st with cur := Re.anyc :: st.cur }
  else if c = '*' then pQuant st Re.star
  else if c = '+' then pQuant st (fun a => Re.seq a (Re.star a))
  else if c = '?' then pQuant st (fun a => Re.alt a Re.eps)
  else if c = '[' ∨ c = ']' ∨ c = Char.ofNat 123 ∨ c = Char.ofNat 125 ∨ c = '|' then
    .error "unsupported construct"
  else .ok { st with cur := Re.lit c :: st.cur }

/-- One step of the pattern compiler. -/
def pstep (st : PSt) (c : Char) : Except String PSt :=
  match st.mode with
  | .norm => handleNorm st c
  | .esc =>
    if c = 'd' then .ok { st with mode := .norm, cur := Re.dcls :: st.cur }
    else if c.isAlphanum then .error "unsupported escape"
    else .ok { st with mode := .norm, cur := Re.lit c :: st.cur }
  | .par =>
    if c = '?' then .ok { st with mode := .parQ }
    else
      let opened : PSt :=
        { st with mode := .norm, outer := some (st.cur, st.nextg), cur := [],
                  nextg := st.nextg + 1 }
      handleNorm opened c
  | .parQ =>
    if c = 'P' then .ok { st with mode := .parQP }
    else .error "unsupported group extension"
  | .parQP =>
    if c = '<' then
      .ok { st with mode := .gname, outer := some (st.cur, st.nextg),
                    cur := [], nextg := st.nextg + 1 }
    else .error "unsupported group extension"
  | .gname =>
    if c = '>' then .ok { st with mode := .norm }
    else .ok st

/-- Run the pattern compiler over a list of characters. -/
def prun (st : PSt) : List Char → Except String PSt
  | [] => .ok st
  | c :: cs =>
    match pstep st c with
    | .ok st' => prun st' cs
    | .error e => .error e

/-- Compile a pattern string; returns the AST and the number of capturing
groups. -/
def parsePattern (pattern : String) : Except String (Re × Nat) :=
  match prun { mode := .norm, outer := none, cur := [], nextg := 0 } pattern.data with
  | .error e => .error e
  | .ok st =>
    match st.mode, st.outer with
    | .norm, none => .ok (buildSeq st.cur.reverse, st.nextg)
    | _, _ => .error "unterminated construct"

/-- Group captures: `(index, captured substring)`, most recent first. -/
abbrev Caps := List (Nat × String)

/-- The substring of `s` from position `i` (inclusive) to `j` (exclusive). -/
def extract (s : List Char) (i j : Nat) : String := String.mk ((s.drop i).take (j - i))

/-- Python's `$` (no MULTILINE): end of the string, or just before a final
newline. -/
def atEol (s : List Char) (j : Nat) : Bool :=
  j = s.length || (j + 1 = s.length && s.get? j = some '\n')

/-- Greedy backtracking Kleene star over a body matcher `ma`: try one more
body iteration first, fall back to exiting the loop.  `fuel` bounds the
number of iterations; the top-level entry point supplies more fuel than a
star over a character class can consume. -/
def mstar (ma : Nat → Caps → (Nat → Caps → Option Caps) → Option Caps) :
    Nat → Nat → Caps → (Nat → Caps → Option Caps) → Option Caps
  | 0, _, _, _ => none
  | f + 1, i, gs, k =>
    (ma i gs (fun j g => mstar ma f j g k)).orElse (fun _ => k i gs)

/-- Backtracking matcher with a continuation, greedy like Python's engine. -/
def mtch (s : List Char) (fuel : Nat) : Re → Nat → Caps →
    (Nat → Caps → Option Caps) → Option Caps
  | .eps, i, gs, k => k i gs
  | .lit c, i, gs, k =>
    match s.get? i with
    | some c' => if c' = c then k (i + 1) gs else none
    | none => none
  | .anyc, i, gs, k =>
    match s.get? i with
    | some c' => if c' ≠ '\n' then k (i + 1) gs else none
    | none => none
  | .dcls, i, gs, k =>
    match s.get? i with
    | some c' => if c'.isDigit then k (i + 1) gs else none
    | none => none
  | .seq a b, i, gs, k => mtch s fuel a i gs (fun j g => mtch s fuel b j g k)
  | .alt a b, i, gs, k =>
    (mtch s fuel a i gs k).orElse (fun _ => mtch s fuel b i gs k)
  | .star a, i, gs, k => mstar (mtch s fuel a) fuel i gs k
  | .grp n a, i, gs, k => mtch s fuel a i gs (fun j g => k j ((n, extract s i j) :: g))
  | .bol, i, gs, k => if i = 0 then k i gs else none
  | .eol, i, gs, k => if atEol s i then k i gs else none

/-- `re.match(pattern, s)` on the supported subset: compile, then match
anchored at position 0 (Python's `match` anchors the start only).  Returns
`none` for no match, or the captures plus the pattern's group count. -/
def pyReMatch (pattern s : String) : Except String (Option (Caps × Nat)) :=
  match parsePattern pattern with
  | .error e => .error e
  | .ok (re, ng) =>
    match mtch s.data (s.data.length + 1) re 0 [] (fun _ g => some g) with
    | some gs => .ok (some (gs, ng))
    | none => .ok none

/-- The value of group `n`, `none` when the group did not participate. -/
def capLookup (gs : Caps) (n : Nat) : Option String :=
  (gs.find? (fun p => p.1 = n)).map (fun p => p.2)

/-- The characters Python's regex syntax treats specially — exactly the
characters `handleNorm` does not compile to a literal match of themselves. -/
def regexSpecials : List Char :=
  ['\\', '.', '^', '$', '*', '+', '?', '(', ')', '[', ']',
   Char.ofNat 123, Char.ofNat 125, '|']

/-- An ordinary pattern character (no special regex meaning). -/
def ordChar (c : Char) : Bool := !(decide (c ∈ regexSpecials))

/-- Is there a digit at position `i`? -/
def digitAt (s : List Char) (i : Nat) : Bool :=
  match s.get? i with
  | some c => c.isDigit
  | none => false

/-- The end position of the maximal digit run starting at `j`. -/
def runEnd (s : List Char) (j : Nat) : Nat :=
  j + ((s.drop j).takeWhile Char.isDigit).length

/-- `Trac2KanbanPlugin._parse_ticket_id` (lines 76-83): builds
`'^%s/(?P<ticket_id>\d+)$' % trac_path_kanban`, matches it against the
request path, and on a match unpacks `matches.groups()` into exactly one
value (`ticket_id, = matches.groups()` — a `ValueError` when the pattern
has any other number of groups).  A pattern-compile error propagates as an
exception. -/
def parse_ticket_id (cfg : Config) (path_info : String) :
    Except String (Option String) :=
  match pyReMatch ("^" ++ cfg.trac_path_kanban ++ "/(?P<ticket_id>" ++ "\\d+)$")
      path_info with
  | .error e => .error e
  | .ok none => .ok none
  | .ok (some (gs, ng)) =>
    if ng = 1 then .ok (capLookup gs 0) else .error "ValueError: unpack"

/-- `Trac2KanbanPlugin.match_request` (lines 60-62): returns the value of
`_parse_ticket_id` — the digit string (truthy) on a match, `None` (falsy)
otherwise. -/
def match_request (cfg : Config) (path_info : String) :
    Except String (Option String) :=
  parse_ticket_id cfg path_info

/-- Python truthiness of the value `match_request` returns: `None` is falsy,
a string is truthy when nonempty. -/
def pyTruthy : Option String → Bool
  | none => false
  | some s => !s.isEmpty

/-- The host-visible outcome of a successful `process_request`: the board it
used, the POST it sent, and the Location header of the 302 redirect. -/
structure ProcessOutcome where
  boardId : String
  sent : SentCard
  redirect : String
  deriving DecidableEq, Repr

/-- `Trac2KanbanPlugin.process_request` (lines 64-74).  `lookupTicket`
models `Trac2KanbanPlugin._get_ticket` over the host's ticket store
(`none` both when the parsed id is `None` and when the ticket does not
exist).  Raise order follows the statement order of the code: the board is
resolved (line 70, where `Board.__init__` may raise) before `create_card`
(line 71, `KeyError` on an unknown priority), and a `None` board only fails
at `board.add_card` (line 72, `AttributeError`).  A regex error is returned
on the left of the sum. -/
def process_request (cfg : Config) (path_info : String)
    (lookupTicket : Option String → Option Ticket) (biResp : BIResp) :
    Except String (Except PyErr ProcessOutcome) := do
  match parse_ticket_id cfg path_info with
  | .error e => .error e
  | .ok tid =>
    .ok (do
      let t ← match lookupTicket tid with
        | none => Except.error PyErr.typeError
        | some t => Except.ok t
      let board? ← match get_board cfg (tfield t "team") biResp with
        | some (.error e) => Except.error e
        | some (.ok b) => Except.ok (some b)
        | none => Except.ok (none : Option Board)
      let card ← (create_card cfg t).1
      match board? with
      | none => Except.error PyErr.attributeError
      | some b =>
        Except.ok
          { boardId := b.board_id
            sent := add_card b cfg.kanban_base_url card 0
            redirect := cfg.trac_path_ticket ++ "/" ++ toString t.id })

/-- Modelled from the spec: the spec's data model describes the team field as
"a configurable \"team\" field", configurable in the same way as the priority
field, but no configuration key for it exists anywhere in the code; the
hypothetical configured field name is therefore an explicit parameter here.
Board resolution as the spec describes it. -/
def specGetBoardVia (teamField : String) (cfg : Config) (t : Ticket)
    (resp : BIResp) : Option (Except PyErr Board) :=
  get_board cfg (tfield t teamField) resp

/-! ### Concrete fixtures used by witnesses and counterexamples -/

/-- A well-formed sample configuration. -/
def cfgA : Config :=
  { permission := "TICKET_VIEW"
    kanban_base_url := "http://kb"
    trac_path_kanban := "/kanban"
    trac_path_ticket := "ticket"
    trac_teams := ["alpha"]
    kanban_boards := ["123"]
    kanban_lane_position := 0
    kanban_card_type := ["Ready"]
    trac_priorities := ["major"]
    kanban_priorities := ["High"]
    trac_priority_field := "priority"
    kanban_auth_user := "u"
    kanban_auth_password := "p"
    trac_base_url := "http://trac" }

/-- A sample ticket on team `alpha`. -/
def tickA : Ticket :=
  { id := 42
    tExists := true
    fields := [("team", "alpha"), ("summary", "Sum"), ("description", "Desc"),
               ("priority", "major")] }

/-- A board-identifiers reply whose single card type name matches nothing in
`cfgA.kanban_card_type`. -/
def respNoMatch : BIResp :=
  { ReplyData := [{ Lanes := [{ Id := 7 }], CardTypes := [{ Id := 9, Name := "Bug" }] }] }

/-- A board-identifiers reply with exactly one matching card type. -/
def respMatch : BIResp :=
  { ReplyData := [{ Lanes := [{ Id := 7 }], CardTypes := [{ Id := 9, Name := "Ready" }] }] }

/-! ### Dictionary lemmas -/

theorem find?_map_upd (d : List (String × String)) (k' v k : String) (h : k' ≠ k) :
    (d.map (fun p => if p.1 = k' then (k', v) else p)).find? (fun p => p.1 = k)
      = d.find? (fun p => p.1 = k) := by
  induction d with
  | nil => rfl
  | cons p ds ih =>
    by_cases hp : p.1 = k'
    · have hk : ¬ p.1 = k := by rw [hp]; exact h
      simp only [List.map_cons, List.find?, hp, if_pos rfl]
      simp [h, hk, ih]
    · simp only [List.map_cons, List.find?, if_neg hp]
      by_cases hk : p.1 = k
      · simp [hk]
      · simp [hk, ih]

theorem find?_map_upd_mem (d : List (String × String)) (k v : String)
    (h : d.any (fun p => p.1 = k) = true) :
    (d.map (fun p => if p.1 = k then (k, v) else p)).find? (fun p => p.1 = k)
      = some (k, v) := by
  induction d with
  | nil => simp at h
  | cons p ds ih =>
    by_cases hp : p.1 = k
    · simp [List.find?, hp]
    · simp only [List.any_cons, Bool.or_eq_true, decide_eq_true_eq] at h
      have hds : ds.any (fun p => p.1 = k) = true := by
        rcases h with h | h
        · exact absurd h hp
        · exact h
      simp only [List.map_cons, List.find?, if_neg hp]
      simp [hp, ih hds]

theorem dinsert_lookup (d : List (String × String)) (k' v k : String) :
    pyLookup (dinsert d k' v) k = if k' = k then some v else pyLookup d k := by
  unfold dinsert pyLookup
  by_cases hmem : d.any (fun p => p.1 = k') = true
  · rw [if_pos hmem]
    by_cases hk : k' = k
    · subst hk
      rw [find?_map_upd_mem d k' v hmem, if_pos rfl]
      rfl
    · rw [find?_map_upd d k' v k hk, if_neg hk]
  · rw [if_neg hmem]
    have hnone : ∀ p ∈ d, ¬ (p.1 = k') := by
      rw [Bool.not_eq_true] at hmem
      intro p hp
      intro hcontra
      have := List.any_eq_false.mp hmem p hp
      simp [hcontra] at this
    rw [List.find?_append]
    by_cases hk : k' = k
    · subst hk
      have : d.find? (fun p => p.1 = k') = none :=
        List.find?_eq_none.mpr (by intro p hp; simpa using hnone p hp)
      simp [this, List.find?]
    · have h1 : (List.find? (fun p => p.1 = k) [(k', v)]) = none := by
        simp [List.find?, hk]
      rw [h1]
      cases hfd : d.find? (fun p => p.1 = k) <;> simp [Option.or, hk]

theorem pyDict_lookup_aux (k : String) :
    ∀ (ps : List (String × String)) (d : List (String × String)),
    pyLookup (ps.foldl (fun d p => dinsert d p.1 p.2) d) k
      = match ps.reverse.find? (fun p => p.1 = k) with
        | some p => some p.2
        | none => pyLookup d k := by
  intro ps
  induction ps with
  | nil => intro d; rfl
  | cons q ps ih =>
    intro d
    rw [List.foldl_cons, ih]
    rw [List.reverse_cons, List.find?_append]
    cases hfd : ps.reverse.find? (fun p => p.1 = k) with
    | some p => simp [Option.or]
    | none =>
      simp only [Option.or]
      by_cases hq : q.1 = k
      · simp [List.find?, hq, dinsert_lookup]
      · simp [List.find?, hq, dinsert_lookup]

/-- The value Python's `dict(pairs)[k]`-model yields is the value of the LAST
pair with key `k`: later pairs overwrite earlier ones. -/
theorem pyDict_lookup (ps : List (String × String)) (k : String) :
    pyLookup (pyDict ps) k
      = (ps.reverse.find? (fun p => p.1 = k)).map (fun p => p.2) := by
  rw [pyDict, pyDict_lookup_aux]
  cases hfd : ps.reverse.find? (fun p => p.1 = k) <;> simp [pyLookup]

theorem pyDict_lookup_eq_none (ps : List (String × String)) (k : String) :
    pyLookup (pyDict ps) k = none ↔ ∀ p ∈ ps, p.1 ≠ k := by
  rw [pyDict_lookup]
  simp only [Option.map_eq_none', List.find?_eq_none, List.mem_reverse,
    decide_eq_true_eq]

theorem zip_take_min {α β : Type} :
    ∀ (l₁ : List α) (l₂ : List β),
    (l₁.take (min l₁.length l₂.length)).zip (l₂.take (min l₁.length l₂.length))
      = l₁.zip l₂ := by
  intro l₁
  induction l₁ with
  | nil => intro l₂; simp
  | cons a l₁ ih =>
    intro l₂
    cases l₂ with
    | nil => simp
    | cons b l₂ =>
      simp only [List.length_cons]
      rw [Nat.succ_min_succ]
      simp only [List.take_succ_cons, List.zip_cons_cons]
      rw [ih l₂]

/-! ### Regex engine lemmas -/

theorem pstep_ord (o : Option (List Re × Nat)) (cur : List Re) (n : Nat) (c : Char)
    (hc : ordChar c = true) :
    pstep ⟨.norm, o, cur, n⟩ c = .ok ⟨.norm, o, Re.lit c :: cur, n⟩ := by
  have h' : ¬ c ∈ regexSpecials := by simpa [ordChar] using hc
  simp only [regexSpecials, List.mem_cons, List.not_mem_nil, or_false, not_or] at h'
  obtain ⟨h1, h2, h3, h4, h5, h6, h7, h8, h9, h10, h11, h12, h13, h14⟩ := h'
  simp [pstep, handleNorm, h1, h2, h3, h4, h5, h6, h7, h8, h9, h10, h11, h12, h13, h14]

theorem prun_lits :
    ∀ (l rest : List Char) (o : Option (List Re × Nat)) (cur : List Re) (n : Nat),
    (∀ c ∈ l, ordChar c = true) →
    prun ⟨.norm, o, cur, n⟩ (l ++ rest)
      = prun ⟨.norm, o, (l.map Re.lit).reverse ++ cur, n⟩ rest := by
  intro l
  induction l with
  | nil => intro rest o cur n _; simp
  | cons c l ih =>
    intro rest o cur n h
    have hc := h c (List.mem_cons_self c l)
    have hrest : ∀ x ∈ l, ordChar x = true := fun x hx => h x (List.mem_cons_of_mem c hx)
    rw [List.cons_append]
    show (match pstep ⟨.norm, o, cur, n⟩ c with
          | .ok st' => prun st' (l ++ rest)
          | .error e => .error e) = _
    rw [pstep_ord o cur n c hc]
    show prun ⟨.norm, o, Re.lit c :: cur, n⟩ (l ++ rest) = _
    rw [ih rest o (Re.lit c :: cur) n hrest]
    have harr : (List.map Re.lit (c :: l)).reverse ++ cur
        = (List.map Re.lit l).reverse ++ (Re.lit c :: cur) := by
      simp
    rw [harr]

theorem prun_tail (cur : List Re) (n : Nat) :
    prun ⟨.norm, none, cur, n⟩ ("/(?P<ticket_id>" ++ "\\d+)$").data
      = .ok ⟨.norm, none,
          Re.eol :: Re.grp n (Re.seq (Re.seq Re.dcls (Re.star Re.dcls)) Re.eps)
            :: Re.lit '/' :: cur, n + 1⟩ := rfl

/-- Compiling the route pattern built from an all-ordinary kanban path gives
the literal spine followed by one digits group and the end anchor. -/
theorem parsePattern_route (base : String)
    (h : ∀ c ∈ base.data, ordChar c = true) :
    parsePattern ("^" ++ base ++ "/(?P<ticket_id>" ++ "\\d+)$")
      = .ok (buildSeq (Re.bol :: ((base.data ++ ['/']).map Re.lit ++
          [Re.grp 0 (Re.seq (Re.seq Re.dcls (Re.star Re.dcls)) Re.eps), Re.eol])), 1) := by
  have hdata : ("^" ++ base ++ "/(?P<ticket_id>" ++ "\\d+)$").data
      = '^' :: (base.data ++ ("/(?P<ticket_id>" ++ "\\d+)$").data) := by
    simp [String.data_append]
  have hrun : prun ⟨.norm, none, [], 0⟩
        ('^' :: (base.data ++ ("/(?P<ticket_id>" ++ "\\d+)$").data))
      = .ok ⟨.norm, none,
          Re.eol :: Re.grp 0 (Re.seq (Re.seq Re.dcls (Re.star Re.dcls)) Re.eps)
            :: Re.lit '/' :: ((base.data.map Re.lit).reverse ++ [Re.bol]), 1⟩ := by
    have hstep : prun ⟨.norm, none, [], 0⟩
          ('^' :: (base.data ++ ("/(?P<ticket_id>" ++ "\\d+)$").data))
        = prun ⟨.norm, none, [Re.bol], 0⟩
            (base.data ++ ("/(?P<ticket_id>" ++ "\\d+)$").data) := rfl
    rw [hstep, prun_lits base.data _ none [Re.bol] 0 h, prun_tail]
  have hlist : (Re.eol :: Re.grp 0 (Re.seq (Re.seq Re.dcls (Re.star Re.dcls)) Re.eps)
        :: Re.lit '/' :: ((base.data.map Re.lit).reverse ++ [Re.bol])).reverse
      = Re.bol :: ((base.data ++ ['/']).map Re.lit ++
          [Re.grp 0 (Re.seq (Re.seq Re.dcls (Re.star Re.dcls)) Re.eps), Re.eol]) := by
    simp
  unfold parsePattern
  rw [hdata, hrun]
  exact congrArg (fun l => Except.ok (buildSeq l, 1)) hlist

theorem drop_get_cons (s : List Char) (j : Nat) (c : Char) (h : s.get? j = some c) :
    s.drop j = c :: s.drop (j + 1) := by
  rw [List.get?_eq_getElem?] at h
  obtain ⟨hj, hc⟩ := List.getElem?_eq_some.mp h
  rw [List.drop_eq_getElem_cons hj, hc]

theorem take_takeWhile (q : Char → Bool) (l : List Char) :
    l.take (l.takeWhile q).length = l.takeWhile q := by
  induction l with
  | nil => rfl
  | cons c l ih =>
    by_cases h : q c = true
    · simp [List.takeWhile_cons, h, ih]
    · simp [List.takeWhile_cons, h]

theorem takeWhile_append_all (q : Char → Bool) (l₁ l₂ : List Char)
    (h : ∀ c ∈ l₁, q c = true) :
    (l₁ ++ l₂).takeWhile q = l₁ ++ l₂.takeWhile q := by
  induction l₁ with
  | nil => rfl
  | cons c l ih =>
    have hc := h c (List.mem_cons_self c l)
    simp [List.takeWhile_cons, hc, ih (fun x hx => h x (List.mem_cons_of_mem c hx))]

theorem takeWhile_at (q : Char → Bool) (l : List Char) (m : Nat)
    (hm : m < (l.takeWhile q).length) :
    ∃ c, l.get? m = some c ∧ q c = true := by
  induction l generalizing m with
  | nil => simp at hm
  | cons c l ih =>
    by_cases hq : q c = true
    · rw [List.takeWhile_cons, if_pos hq] at hm
      cases m with
      | zero => exact ⟨c, rfl, hq⟩
      | succ m =>
        simp only [List.length_cons, Nat.succ_lt_succ_iff] at hm
        exact ih m hm
    · rw [List.takeWhile_cons, if_neg hq] at hm
      simp at hm

theorem runEnd_of_none (s : List Char) (j : Nat) (h : s.get? j = none) :
    runEnd s j = j := by
  have hlen : s.length ≤ j := List.get?_eq_none.mp h
  unfold runEnd
  rw [List.drop_eq_nil_of_le hlen]
  rfl

theorem runEnd_of_nondigit (s : List Char) (j : Nat) (c : Char)
    (h : s.get? j = some c) (hd : ¬ c.isDigit = true) :
    runEnd s j = j := by
  unfold runEnd
  rw [drop_get_cons s j c h, List.takeWhile_cons, if_neg hd]
  rfl

theorem runEnd_of_digit (s : List Char) (j : Nat) (c : Char)
    (h : s.get? j = some c) (hd : c.isDigit = true) :
    runEnd s j = runEnd s (j + 1) := by
  unfold runEnd
  rw [drop_get_cons s j c h, List.takeWhile_cons, if_pos hd]
  simp [Nat.add_comm, Nat.add_assoc, Nat.add_left_comm]

theorem le_runEnd (s : List Char) (j : Nat) : j ≤ runEnd s j := Nat.le_add_right j _

theorem runEnd_le_length (s : List Char) (j : Nat) (h : j ≤ s.length) :
    runEnd s j ≤ s.length := by
  unfold runEnd
  have h1 : ((s.drop j).takeWhile Char.isDigit).length ≤ (s.drop j).length :=
    (List.takeWhile_sublist Char.isDigit).length_le
  have h2 : (s.drop j).length = s.length - j := List.length_drop j s
  omega

theorem digit_in_run (s : List Char) (j x : Nat) (hjx : j ≤ x)
    (hx : x < runEnd s j) : ∃ c, s.get? x = some c ∧ c.isDigit = true := by
  have hm : x - j < ((s.drop j).takeWhile Char.isDigit).length := by
    unfold runEnd at hx
    omega
  obtain ⟨c, hc, hcd⟩ := takeWhile_at Char.isDigit (s.drop j) (x - j) hm
  refine ⟨c, ?_, hcd⟩
  have hget : (s.drop j).get? (x - j) = s.get? (j + (x - j)) := by
    rw [List.get?_eq_getElem?, List.get?_eq_getElem?, List.getElem?_drop]
  rw [hget] at hc
  have : j + (x - j) = x := by omega
  rwa [this] at hc

/-- Greedy star over `\d` with a continuation that fails at every position
strictly inside the digit run: the result is the continuation applied at the
end of the run. -/
theorem mstar_dcls_run (s : List Char) (fd : Nat) (gs : Caps)
    (k : Nat → Caps → Option Caps) :
    ∀ (f j : Nat), s.length - j < f → j ≤ s.length →
    (∀ x, j ≤ x → x < runEnd s j → k x gs = none) →
    mstar (mtch s fd Re.dcls) f j gs k = k (runEnd s j) gs := by
  intro f
  induction f with
  | zero => intro j hf _ _; omega
  | succ f ih =>
    intro j hf hj hk
    show (mtch s fd Re.dcls j gs (fun j' g => mstar (mtch s fd Re.dcls) f j' g k)).orElse
        (fun _ => k j gs) = k (runEnd s j) gs
    cases hget : s.get? j with
    | none =>
      rw [runEnd_of_none s j hget]
      show ((match s.get? j with
             | some c' => if c'.isDigit then
                 (fun j' g => mstar (mtch s fd Re.dcls) f j' g k) (j + 1) gs
               else none
             | none => none) : Option Caps).orElse (fun _ => k j gs) = k j gs
      rw [hget]
      rfl
    | some c =>
      by_cases hdig : c.isDigit = true
      · have hjlt : j < s.length := by
          rw [List.get?_eq_getElem?] at hget
          exact (List.getElem?_eq_some.mp hget).1
        have hre : runEnd s j = runEnd s (j + 1) := runEnd_of_digit s j c hget hdig
        have hinner : mtch s fd Re.dcls j gs
            (fun j' g => mstar (mtch s fd Re.dcls) f j' g k)
            = mstar (mtch s fd Re.dcls) f (j + 1) gs k := by
          show (match s.get? j with
                | some c' => if c'.isDigit then
                    (fun j' g => mstar (mtch s fd Re.dcls) f j' g k) (j + 1) gs
                  else none
                | none => none) = _
          rw [hget]
          simp [hdig]
        have hrun : mstar (mtch s fd Re.dcls) f (j + 1) gs k = k (runEnd s (j + 1)) gs := by
          refine ih (j + 1) (by omega) (by omega) ?_
          intro x hx1 hx2
          exact hk x (by omega) (by rw [hre]; exact hx2)
        show (mtch s fd Re.dcls j gs
            (fun j' g => mstar (mtch s fd Re.dcls) f j' g k)).orElse
            (fun _ => k j gs) = k (runEnd s j) gs
        rw [hinner, hrun, ← hre]
        cases hkr : k (runEnd s j) gs with
        | some x => rfl
        | none =>
          have hjr : j < runEnd s j := by
            rw [hre]
            have := le_runEnd s (j + 1)
            omega
          have hkj : k j gs = none := hk j (Nat.le_refl j) hjr
          simp [Option.orElse, hkj]
      · rw [runEnd_of_nondigit s j c hget hdig]
        show ((match s.get? j with
               | some c' => if c'.isDigit then
                   (fun j' g => mstar (mtch s fd Re.dcls) f j' g k) (j + 1) gs
                 else none
               | none => none) : Option Caps).orElse (fun _ => k j gs) = k j gs
        rw [hget]
        simp [hdig, Option.orElse]

/-- Matching a literal spine: the input must carry exactly those characters
at the current position, then matching continues after them. -/
theorem mtch_lits (s : List Char) (f : Nat) :
    ∀ (cs : List Char) (rest : List Re) (i : Nat) (gs : Caps)
      (k : Nat → Caps → Option Caps),
    mtch s f (buildSeq (cs.map Re.lit ++ rest)) i gs k
      = if (s.drop i).take cs.length = cs
        then mtch s f (buildSeq rest) (i + cs.length) gs k
        else none := by
  intro cs
  induction cs with
  | nil =>
    intro rest i gs k
    simp
  | cons c cs ih =>
    intro rest i gs k
    show (match s.get? i with
          | some c' =>
            if c' = c then mtch s f (buildSeq (cs.map Re.lit ++ rest)) (i + 1) gs k
            else none
          | none => none) = _
    cases hget : s.get? i with
    | none =>
      have hlen : s.length ≤ i := List.get?_eq_none.mp hget
      have hdrop : s.drop i = [] := List.drop_eq_nil_of_le hlen
      rw [hdrop]
      simp
    | some c' =>
      have hdrop : s.drop i = c' :: s.drop (i + 1) := drop_get_cons s i c' hget
      show (if c' = c then mtch s f (buildSeq (cs.map Re.lit ++ rest)) (i + 1) gs k
            else none) = _
      by_cases hc : c' = c
      · subst hc
        rw [if_pos rfl, ih rest (i + 1) gs k]
        have hcond : ((s.drop i).take (c' :: cs).length = c' :: cs)
            ↔ ((s.drop (i + 1)).take cs.length = cs) := by
          rw [hdrop]
          simp [List.length_cons, List.take_succ_cons]
        by_cases hx : (s.drop (i + 1)).take cs.length = cs
        · rw [if_pos hx, if_pos (hcond.mpr hx)]
          have hidx : i + (c' :: cs).length = i + 1 + cs.length := by
            simp only [List.length_cons]
            omega
          rw [hidx]
        · rw [if_neg hx, if_neg (fun hcon => hx (hcond.mp hcon))]
      · rw [if_neg hc]
        have hcond : ¬ ((s.drop i).take (c :: cs).length = c :: cs) := by
          rw [hdrop]
          simp [List.length_cons, List.take_succ_cons, hc]
        rw [if_neg hcond]

/-- Matching the digits group followed by the end anchor: succeeds exactly
when there is at least one digit at the current position and the end of the
digit run satisfies `$`; the group captures the digit run. -/
theorem mtch_tail (s : List Char) (f i : Nat) (gs : Caps) (hf : s.length < f) :
    mtch s f (buildSeq [Re.grp 0 (Re.seq (Re.seq Re.dcls (Re.star Re.dcls)) Re.eps),
        Re.eol]) i gs (fun _ g => some g)
      = if digitAt s i && atEol s (runEnd s i)
        then some ((0, extract s i (runEnd s i)) :: gs)
        else none := by
  show (match s.get? i with
        | some c =>
          if c.isDigit then
            mstar (mtch s f Re.dcls) f (i + 1) gs
              (fun j g => if atEol s j then some ((0, extract s i j) :: g) else none)
          else none
        | none => none) = _
  cases hget : s.get? i with
  | none =>
    show (none : Option Caps) = _
    have hda : digitAt s i = false := by
      unfold digitAt
      rw [hget]
    rw [hda]
    simp
  | some c =>
    show (if c.isDigit then
            mstar (mtch s f Re.dcls) f (i + 1) gs
              (fun j g => if atEol s j then some ((0, extract s i j) :: g) else none)
          else none) = _
    by_cases hdig : c.isDigit = true
    · have hilen : i < s.length := by
        rw [List.get?_eq_getElem?] at hget
        exact (List.getElem?_eq_some.mp hget).1
      have hre : runEnd s i = runEnd s (i + 1) := runEnd_of_digit s i c hget hdig
      have hk : ∀ x, i + 1 ≤ x → x < runEnd s (i + 1) →
          (fun j g => if atEol s j then some ((0, extract s i j) :: g) else none) x gs
            = none := by
        intro x hx1 hx2
        obtain ⟨cx, hcx, hcxd⟩ := digit_in_run s (i + 1) x hx1 hx2
        have hxlen : x < s.length := by
          have := runEnd_le_length s (i + 1) (by omega)
          omega
        have h1 : ¬ (x = s.length) := by omega
        have h2 : ¬ (s.get? x = some '\n') := by
          rw [hcx]
          intro hcontra
          have hcc : cx = '\n' := Option.some.inj hcontra
          rw [hcc] at hcxd
          exact absurd hcxd (by decide)
        have h2' : ¬ s[x]? = some '\n' := by
          rw [← List.get?_eq_getElem?]
          exact h2
        show (if atEol s x then _ else none) = none
        have hae : atEol s x = false := by
          simp [atEol, h1, h2']
        rw [hae]
        simp
      have hrun := mstar_dcls_run s f gs
        (fun j g => if atEol s j then some ((0, extract s i j) :: g) else none)
        f (i + 1) (by omega) (by omega) hk
      simp only [hdig, if_true]
      rw [hrun]
      show (if atEol s (runEnd s (i + 1))
            then some ((0, extract s i (runEnd s (i + 1))) :: gs) else none) = _
      rw [← hre]
      have hda : digitAt s i = true := by
        unfold digitAt
        rw [hget]
        exact hdig
      rw [hda]
      simp
    · have hda : digitAt s i = false := by
        unfold digitAt
        rw [hget]
        simpa using hdig
      rw [if_neg hdig, hda]
      simp

/-- The route matcher under an all-ordinary configured kanban path: the
request path must carry the path, a slash, then a digit run (at least one
digit) whose end satisfies `$`; the single group captures that digit run. -/
theorem parse_ticket_id_route (cfg : Config) (p : String)
    (h : ∀ c ∈ cfg.trac_path_kanban.data, ordChar c = true) :
    parse_ticket_id cfg p
      = .ok (if (p.data.take (cfg.trac_path_kanban.data ++ ['/']).length
                  = cfg.trac_path_kanban.data ++ ['/'])
                ∧ digitAt p.data (cfg.trac_path_kanban.data ++ ['/']).length = true
                ∧ atEol p.data
                    (runEnd p.data (cfg.trac_path_kanban.data ++ ['/']).length) = true
             then some (String.mk
               ((p.data.drop (cfg.trac_path_kanban.data ++ ['/']).length).takeWhile
                 Char.isDigit))
             else none) := by
  have hAST := parsePattern_route cfg.trac_path_kanban h
  have hex : extract p.data (cfg.trac_path_kanban.data ++ ['/']).length
      (runEnd p.data (cfg.trac_path_kanban.data ++ ['/']).length)
      = String.mk ((p.data.drop (cfg.trac_path_kanban.data ++ ['/']).length).takeWhile
          Char.isDigit) := by
    unfold extract runEnd
    rw [Nat.add_sub_cancel_left]
    rw [take_takeWhile]
  have hmtch : mtch p.data (p.data.length + 1)
      (buildSeq (Re.bol :: (((cfg.trac_path_kanban.data ++ ['/']).map Re.lit) ++
        [Re.grp 0 (Re.seq (Re.seq Re.dcls (Re.star Re.dcls)) Re.eps), Re.eol])))
      0 [] (fun _ g => some g)
    = (if (p.data.take (cfg.trac_path_kanban.data ++ ['/']).length
            = cfg.trac_path_kanban.data ++ ['/'])
          ∧ digitAt p.data (cfg.trac_path_kanban.data ++ ['/']).length = true
          ∧ atEol p.data
              (runEnd p.data (cfg.trac_path_kanban.data ++ ['/']).length) = true
       then some [(0, extract p.data (cfg.trac_path_kanban.data ++ ['/']).length
              (runEnd p.data (cfg.trac_path_kanban.data ++ ['/']).length))]
       else none) := by
    have h0 : mtch p.data (p.data.length + 1)
        (buildSeq (Re.bol :: (((cfg.trac_path_kanban.data ++ ['/']).map Re.lit) ++
          [Re.grp 0 (Re.seq (Re.seq Re.dcls (Re.star Re.dcls)) Re.eps), Re.eol])))
        0 [] (fun _ g => some g)
      = mtch p.data (p.data.length + 1)
          (buildSeq (((cfg.trac_path_kanban.data ++ ['/']).map Re.lit) ++
            [Re.grp 0 (Re.seq (Re.seq Re.dcls (Re.star Re.dcls)) Re.eps), Re.eol]))
          0 [] (fun _ g => some g) := rfl
    rw [h0, mtch_lits, List.drop_zero, Nat.zero_add]
    by_cases h1 : p.data.take (cfg.trac_path_kanban.data ++ ['/']).length
        = cfg.trac_path_kanban.data ++ ['/']
    · rw [if_pos h1,
        mtch_tail p.data (p.data.length + 1)
          (cfg.trac_path_kanban.data ++ ['/']).length [] (by omega)]
      by_cases h2 : digitAt p.data (cfg.trac_path_kanban.data ++ ['/']).length = true
      · by_cases h3 : atEol p.data
            (runEnd p.data (cfg.trac_path_kanban.data ++ ['/']).length) = true
        · rw [if_pos (by rw [h2, h3]; rfl), if_pos ⟨h1, h2, h3⟩]
        · rw [if_neg (fun hcon => h3 (by rw [Bool.and_eq_true] at hcon; exact hcon.2)),
            if_neg (fun hcon => h3 hcon.2.2)]
      · rw [if_neg (fun hcon => h2 (by rw [Bool.and_eq_true] at hcon; exact hcon.1)),
          if_neg (fun hcon => h2 hcon.2.1)]
    · rw [if_neg h1, if_neg (fun hcon => h1 hcon.1)]
  unfold parse_ticket_id pyReMatch
  rw [hAST]
  show (match (match mtch p.data (p.data.length + 1)
          (buildSeq (Re.bol :: (((cfg.trac_path_kanban.data ++ ['/']).map Re.lit) ++
            [Re.grp 0 (Re.seq (Re.seq Re.dcls (Re.star Re.dcls)) Re.eps), Re.eol])))
          0 [] (fun _ g => some g) with
        | some gs => Except.ok (some (gs, 1))
        | none => Except.ok (none : Option (Caps × Nat))) with
      | Except.error e => Except.error e
      | Except.ok none => Except.ok (none : Option String)
      | Except.ok (some (gs, ng)) =>
        if ng = 1 then Except.ok (capLookup gs 0)
        else Except.error "ValueError: unpack") = _
  rw [hmtch]
  by_cases hcond : (p.data.take (cfg.trac_path_kanban.data ++ ['/']).length
        = cfg.trac_path_kanban.data ++ ['/'])
      ∧ digitAt p.data (cfg.trac_path_kanban.data ++ ['/']).length = true
      ∧ atEol p.data
          (runEnd p.data (cfg.trac_path_kanban.data ++ ['/']).length) = true
  · rw [if_pos hcond, if_pos hcond, hex]
    rfl
  · rw [if_neg hcond, if_neg hcond]

theorem all_takeWhile (q : Char → Bool) (l : List Char) :
    (l.takeWhile q).all q = true := by
  induction l with
  | nil => rfl
  | cons c l ih =>
    by_cases hq : q c = true
    · simp [List.takeWhile_cons, hq, ih]
    · simp [List.takeWhile_cons, hq]

theorem takeWhile_all_eq (q : Char → Bool) (l : List Char)
    (h : ∀ c ∈ l, q c = true) : l.takeWhile q = l := by
  induction l with
  | nil => rfl
  | cons c l ih =>
    simp [List.takeWhile_cons, h c (List.mem_cons_self c l),
      ih (fun x hx => h x (List.mem_cons_of_mem c hx))]

theorem get?_append_len {α : Type} (l m : List α) (n : Nat) :
    (l ++ m).get? (l.length + n) = m.get? n := by
  rw [List.get?_eq_getElem?, List.get?_eq_getElem?,
    List.getElem?_append_right (by omega)]
  congr 1
  omega

theorem get?_drop_zero (s : List Char) (m : Nat) :
    (s.drop m).get? 0 = s.get? m := by
  rw [List.get?_eq_getElem?, List.get?_eq_getElem?, List.getElem?_drop,
    Nat.add_zero]

/-- Decomposing a successful route match: the input is the prefix, then the
digit run, then nothing or a single final newline. -/
theorem route_shape (s b : List Char) (hpre : s.take b.length = b)
    (c : Char) (hgc : s.get? b.length = some c)
    (h3 : atEol s (runEnd s b.length) = true) :
    s = b ++ (s.drop b.length).takeWhile Char.isDigit
    ∨ s = b ++ (s.drop b.length).takeWhile Char.isDigit ++ ['\n'] := by
  have hm : runEnd s b.length
      = b.length + ((s.drop b.length).takeWhile Char.isDigit).length := rfl
  have hnlen : b.length < s.length := by
    rw [List.get?_eq_getElem?] at hgc
    exact (List.getElem?_eq_some.mp hgc).1
  have htake_m : s.take (runEnd s b.length)
      = b ++ (s.drop b.length).takeWhile Char.isDigit := by
    rw [hm, List.take_add, hpre, take_takeWhile]
  have hs2 : s = (b ++ (s.drop b.length).takeWhile Char.isDigit)
      ++ s.drop (runEnd s b.length) := by
    conv_lhs => rw [← List.take_append_drop (runEnd s b.length) s]
    rw [htake_m]
  have h3' : runEnd s b.length = s.length
      ∨ (runEnd s b.length + 1 = s.length
         ∧ s.get? (runEnd s b.length) = some '\n') := by
    have := h3
    unfold atEol at this
    simpa using this
  rcases h3' with hend | ⟨hend, hnl⟩
  · left
    have hdz : s.drop (runEnd s b.length) = [] :=
      List.drop_eq_nil_of_le (le_of_eq hend.symm)
    rw [hdz, List.append_nil] at hs2
    exact hs2
  · right
    have hdropm : s.drop (runEnd s b.length) = ['\n'] := by
      have hlen1 : (s.drop (runEnd s b.length)).length = 1 := by
        rw [List.length_drop]
        omega
      have hget0 : (s.drop (runEnd s b.length)).get? 0 = some '\n' := by
        rw [get?_drop_zero]
        exact hnl
      cases hd : s.drop (runEnd s b.length) with
      | nil => rw [hd] at hlen1; simp at hlen1
      | cons x xs =>
        rw [hd] at hlen1 hget0
        simp only [List.length_cons, Nat.add_eq, Nat.add_right_cancel_iff] at hlen1
        have hxs : xs = [] := List.length_eq_zero.mp (by omega)
        have hx : x = '\n' := by
          simp only [List.get?] at hget0
          exact Option.some.inj hget0
        rw [hxs, hx]
    rw [hdropm] at hs2
    exact hs2

/-- Building a successful route match: a prefix + nonempty digit run +
(nothing or one final newline) input satisfies every matcher condition, and
the captured run is the digit block. -/
theorem route_conds (s b ds rest : List Char) (hne : ds ≠ [])
    (hdig : ds.all Char.isDigit = true) (hrest : rest = [] ∨ rest = ['\n'])
    (hs : s = (b ++ ds) ++ rest) :
    s.take b.length = b ∧ digitAt s b.length = true
    ∧ atEol s (runEnd s b.length) = true
    ∧ (s.drop b.length).takeWhile Char.isDigit = ds := by
  have hdall : ∀ x ∈ ds, Char.isDigit x = true := by
    intro x hx
    exact List.all_eq_true.mp hdig x hx
  have hassoc : s = b ++ (ds ++ rest) := by rw [hs, List.append_assoc]
  have htake : s.take b.length = b := by
    rw [hassoc]
    exact List.take_left b (ds ++ rest)
  have hdrop : s.drop b.length = ds ++ rest := by
    rw [hassoc]
    exact List.drop_left b (ds ++ rest)
  have htw : (s.drop b.length).takeWhile Char.isDigit = ds := by
    rw [hdrop, takeWhile_append_all Char.isDigit ds rest hdall]
    rcases hrest with hr | hr <;> rw [hr] <;> simp
  obtain ⟨d, ds', hds'⟩ : ∃ d ds', ds = d :: ds' := by
    cases ds with
    | nil => exact absurd rfl hne
    | cons d ds' => exact ⟨d, ds', rfl⟩
  have hdd : d.isDigit = true := hdall d (by rw [hds']; exact List.mem_cons_self d ds')
  have hda : digitAt s b.length = true := by
    unfold digitAt
    have hg : s.get? b.length = some d := by
      have := get?_append_len b (ds ++ rest) 0
      rw [Nat.add_zero] at this
      rw [hassoc, this, hds']
      rfl
    rw [hg]
    exact hdd
  have hre : runEnd s b.length = b.length + ds.length := by
    unfold runEnd
    rw [htw]
  have hlen : s.length = b.length + ds.length + rest.length := by
    rw [hs]
    simp [List.length_append]
    omega
  have hae : atEol s (runEnd s b.length) = true := by
    rcases hrest with hr | hr
    · have : runEnd s b.length = s.length := by
        rw [hre, hlen, hr]
        simp
      simp [atEol, this]
    · have h1 : runEnd s b.length + 1 = s.length := by
        rw [hre, hlen, hr]
        simp
      have h2 : s.get? (runEnd s b.length) = some '\n' := by
        rw [hre, hassoc]
        have hstep1 : (b ++ (ds ++ rest)).get? (b.length + ds.length)
            = (ds ++ rest).get? ds.length := get?_append_len b (ds ++ rest) ds.length
        rw [hstep1]
        have hstep2 : (ds ++ rest).get? (ds.length + 0) = rest.get? 0 :=
          get?_append_len ds rest 0
        rw [Nat.add_zero] at hstep2
        rw [hstep2, hr]
        rfl
      have h2' : s[runEnd s b.length]? = some '\n' := by
        rw [← List.get?_eq_getElem?]
        exact h2
      simp [atEol, h1, h2']
  exact ⟨htake, hda, hae, htw⟩

/-! ### Claims -/

/-- C1 counterexample: with a board-identifiers reply in which no card type
name matches the configured `kanban_card_type` list, `_parse_info` yields
only the lane id, and `Board` construction does NOT succeed: the unpacking
`self.lane_id, self.card_type_id = self._get_info()` fails with a
`ValueError`, contradicting the claim that construction still succeeds with
an empty card-type-id list. -/
theorem C1_counterexample :
    parse_info cfgA respNoMatch = .ok [7] ∧
    Board.init cfgA "alpha" respNoMatch = .error .valueError := by
  exact ⟨rfl, rfl⟩

/-- C1 (amended): whenever the configured card-type names match no card type
of the reply (and the board name and lane position resolve), `_parse_info`
yields the one-element list holding only the lane id — the card-type portion
is empty — but `Board.__init__` then fails with a `ValueError` because the
unpacking into `(lane_id, card_type_id)` requires exactly two values, so
Board construction fails rather than succeeding. -/
theorem C1_theorem (cfg : Config) (name bid : String) (resp : BIResp)
    (rd : BoardData) (lane : Lane)
    (hb : pyLookup (teamBoards cfg) name = some bid)
    (hr : pyIndex resp.ReplyData 0 = .ok rd)
    (hl : pyIndex rd.Lanes cfg.kanban_lane_position = .ok lane)
    (hn : ∀ ct ∈ rd.CardTypes, ct.Name ∉ cfg.kanban_card_type) :
    parse_info cfg resp = .ok [lane.Id] ∧
    Board.init cfg name resp = .error .valueError := by
  have hfil : rd.CardTypes.filter (fun c => c.Name ∈ cfg.kanban_card_type) = [] :=
    List.filter_eq_nil_iff.mpr (by intro ct hct; simpa using hn ct hct)
  have hparse : parse_info cfg resp = .ok [lane.Id] := by
    unfold parse_info
    rw [hr]
    show (pyIndex rd.Lanes cfg.kanban_lane_position).bind _ = _
    rw [hl]
    show Except.ok (lane.Id :: _) = _
    rw [hfil]
    rfl
  refine ⟨hparse, ?_⟩
  unfold Board.init
  rw [hb]
  show (parse_info cfg resp).bind _ = _
  rw [hparse]
  rfl

/-- C1 witness for the amended theorem, at the concrete fixture. -/
theorem C1_witness :
    parse_info cfgA respNoMatch = .ok [7] ∧
    Board.init cfgA "alpha" respNoMatch = .error .valueError :=
  C1_theorem cfgA "alpha" "123" respNoMatch
    { Lanes := [{ Id := 7 }], CardTypes := [{ Id := 9, Name := "Bug" }] } { Id := 7 }
    rfl rfl rfl (by decide)

/-- A configuration for the C2 counterexample: the (hypothetically
configurable) team field would be `squad`, and the team list contains the
value of the ticket's `squad` field but not that of its `team` field. -/
def cfgC2 : Config :=
  { cfgA with trac_teams := ["t2"], kanban_boards := ["9"],
              trac_priority_field := "squad" }

/-- A ticket whose hardcoded `team` field and hypothetical configured team
field (`squad`) disagree. -/
def tickC2 : Ticket :=
  { id := 5
    tExists := true
    fields := [("team", "t1"), ("squad", "t2"), ("summary", "s"),
               ("description", "d")] }

/-- C2 counterexample: resolving the board through a configured field name
(`squad`, as the spec describes) finds a board, but the code reads the fixed
field name `team` — `get_board` finds nothing and the render flow passes the
stream through unchanged.  The team field is therefore not configurable. -/
theorem C2_counterexample :
    (specGetBoardVia "squad" cfgC2 tickC2 respMatch).isSome = true ∧
    get_board cfgC2 (tfield tickC2 "team") respMatch = none ∧
    filter_stream cfgC2 "ticket.html" (some tickC2) true (0 : Nat) respMatch
      { ReplyCode := 100 } = .ok (.unchanged 0) := by
  refine ⟨rfl, rfl, rfl⟩

/-- C2 (amended): the ticket field the team is read from is NOT
configurable; both flows read the fixed field `team`.  In particular the
render flow and the board resolution used by both flows (`get_board`) are
invariant under any change of `trac_priority_field`, the only
configurable-field-name key in the configuration. -/
theorem C2_theorem {α : Type} (cfg : Config) (x : String) (fn : String)
    (tickOpt : Option Ticket) (hasPerm : Bool) (stream : α) (bi : BIResp)
    (cr : CardReply) (nm : Option String) (rsp : BIResp) :
    filter_stream { cfg with trac_priority_field := x } fn tickOpt hasPerm
        stream bi cr
      = filter_stream cfg fn tickOpt hasPerm stream bi cr ∧
    get_board { cfg with trac_priority_field := x } nm rsp
      = get_board cfg nm rsp := by
  exact ⟨rfl, rfl⟩

/-- C3: `call` decodes and returns the response body regardless of the
status code; its log is the request header line followed by the
status-dependent lines, and for status 401 those are exactly the single
unauthorized debug message — no distinct error is raised (the result type
carries no failure at all). -/
theorem C3_theorem {α : Type} (decode : String → α) (url method : String)
    (data : Option String) (resp : HttpResp) :
    (call decode url method data resp).content = decode resp.body ∧
    (call decode url method data resp).logs
      = LogEvent.callHeader url method data :: statusLogs resp ∧
    ∀ body : String, statusLogs { status := "401", body := body }
      = [LogEvent.unauthorized] := by
  exact ⟨rfl, rfl, fun _ => rfl⟩

/-- C4: for a ticket whose priority value is a key of the configured
priority mapping, the card payload has exactly the claimed fields: the
mapped priority, the ticket id as external card id, external system name
"Trac", summary/description as title/description, size 1, not blocked, and
the external URL `trac.base_url / trac_path_ticket / ticket id`. -/
theorem C4_theorem (cfg : Config) (t : Ticket) (v kp : String)
    (hv : tfield t cfg.trac_priority_field = some v)
    (hkp : pyLookup (prioritiesMap cfg) v = some kp) :
    (create_card cfg t).1 = .ok
      { Title := tfield t "summary"
        Description := tfield t "description"
        TypeId := none
        Priority := kp
        Size := 1
        IsBlocked := false
        BlockReason := ""
        DueDate := none
        ExternalSystemName := "Trac"
        ExternalSystemUrl :=
          cfg.trac_base_url ++ "/" ++ cfg.trac_path_ticket ++ "/" ++ toString t.id
        Tags := ""
        ClassOfServiceId := none
        ExternalCardID := t.id
        AssignedUserIds := [] } := by
  simp only [create_card, pyLookupOpt, hv, hkp]

/-- C4 witness at the concrete fixture. -/
theorem C4_witness :
    (create_card cfgA tickA).1 = .ok
      { Title := tfield tickA "summary"
        Description := tfield tickA "description"
        TypeId := none
        Priority := "High"
        Size := 1
        IsBlocked := false
        BlockReason := ""
        DueDate := none
        ExternalSystemName := "Trac"
        ExternalSystemUrl := "http://trac" ++ "/" ++ "ticket" ++ "/" ++ toString (42 : Int)
        Tags := ""
        ClassOfServiceId := none
        ExternalCardID := 42
        AssignedUserIds := [] } :=
  C4_theorem cfgA tickA "major" "High" (by decide) (by decide)

/-- C5: `create_card` issues no HTTP request, and it raises exactly a
`KeyError` when (and only when) the ticket's value in the configured
priority field is not a key of the mapping zipped from `trac_priorities`
and `kanban_priorities`; whenever the value is a key it returns a payload
without error. -/
theorem C5_theorem (cfg : Config) (t : Ticket) :
    (create_card cfg t).2 = [] ∧
    ((create_card cfg t).1 = .error .keyError ↔
      ¬ ∃ v, tfield t cfg.trac_priority_field = some v ∧
        v ∈ (cfg.trac_priorities.zip cfg.kanban_priorities).map Prod.fst) ∧
    ((∃ c, (create_card cfg t).1 = .ok c) ↔
      ∃ v, tfield t cfg.trac_priority_field = some v ∧
        v ∈ (cfg.trac_priorities.zip cfg.kanban_priorities).map Prod.fst) := by
  have hkey : ∀ v : String,
      (pyLookup (prioritiesMap cfg) v = none ↔
        v ∉ (cfg.trac_priorities.zip cfg.kanban_priorities).map Prod.fst) := by
    intro v
    rw [prioritiesMap, pyDict_lookup_eq_none]
    constructor
    · intro h hv
      rcases List.mem_map.mp hv with ⟨p, hp, hpv⟩
      exact h p hp hpv
    · intro h p hp hpv
      exact h (List.mem_map.mpr ⟨p, hp, hpv⟩)
  cases hv : tfield t cfg.trac_priority_field with
  | none =>
    have hcc : (create_card cfg t).1 = Except.error PyErr.keyError := by
      simp only [create_card, pyLookupOpt, hv]
    have hno : ¬ ∃ v, (none : Option String) = some v ∧
        v ∈ (cfg.trac_priorities.zip cfg.kanban_priorities).map Prod.fst := by
      rintro ⟨v, hveq, -⟩
      exact Option.noConfusion hveq
    refine ⟨rfl, iff_of_true hcc hno, ?_⟩
    constructor
    · rintro ⟨c, hc⟩
      rw [hcc] at hc
      exact Except.noConfusion hc
    · intro h
      exact absurd h hno
  | some v =>
    cases hl : pyLookup (prioritiesMap cfg) v with
    | none =>
      have hv' := (hkey v).mp hl
      have hcc : (create_card cfg t).1 = Except.error PyErr.keyError := by
        simp only [create_card, pyLookupOpt, hv, hl]
      have hno : ¬ ∃ w, some v = some w ∧
          w ∈ (cfg.trac_priorities.zip cfg.kanban_priorities).map Prod.fst := by
        rintro ⟨w, hweq, hwmem⟩
        cases Option.some.inj hweq
        exact hv' hwmem
      refine ⟨rfl, iff_of_true hcc hno, ?_⟩
      constructor
      · rintro ⟨c, hc⟩
        rw [hcc] at hc
        exact Except.noConfusion hc
      · intro h
        exact absurd h hno
    | some kp =>
      have hv' : v ∈ (cfg.trac_priorities.zip cfg.kanban_priorities).map Prod.fst := by
        by_contra hvn
        have := (hkey v).mpr hvn
        rw [hl] at this
        exact Option.noConfusion this
      have hex : ∃ w, some v = some w ∧
          w ∈ (cfg.trac_priorities.zip cfg.kanban_priorities).map Prod.fst :=
        ⟨v, rfl, hv'⟩
      have hok : ∃ c, (create_card cfg t).1 = Except.ok c := by
        simp only [create_card, pyLookupOpt, hv, hl]
        exact ⟨_, rfl⟩
      refine ⟨rfl, ?_, iff_of_true hok hex⟩
      refine iff_of_false ?_ (not_not_intro hex)
      intro hcontra
      rcases hok with ⟨c, hc⟩
      rw [hc] at hcontra
      exact Except.noConfusion hcontra

/-- C7: `get_card_url` returns the board-level view URL exactly when the
reply code is 200 and nothing otherwise; the returned value does not depend
on the external id (only the request URL does). -/
theorem C7_theorem (b : Board) (base : String) (id₁ id₂ : Int)
    (reply : CardReply) :
    (get_card_url b base id₁ reply).2
      = (if reply.ReplyCode = 200 then some (base ++ "/Boards/View/" ++ b.board_id)
         else none) ∧
    (get_card_url b base id₁ reply).2 = (get_card_url b base id₂ reply).2 := by
  exact ⟨rfl, rfl⟩

/-- C8: whatever the payload's previous `TypeId`, after `add_card` the
payload sent to the service carries the board's resolved card-type id. -/
theorem C8_theorem (b : Board) (base : String) (card : Card)
    (tid : Option Int) (pos : Int) :
    (add_card b base { card with TypeId := tid } pos).payload.TypeId
      = some b.card_type_id := rfl

/-- C9: a team name not present in `trac_teams` is not a key of the zipped
team-to-board dict, so `get_board` returns nothing; and the render flow
passes the stream through unchanged for any ticket with such a team. -/
theorem C9_theorem {α : Type} (cfg : Config) (nm : String)
    (hnm : nm ∉ cfg.trac_teams) (t : Ticket) (ht : tfield t "team" = some nm)
    (fn : String) (hasPerm : Bool) (stream : α) (bi : BIResp) (cr : CardReply) :
    get_board cfg (some nm) bi = none ∧
    filter_stream cfg fn (some t) hasPerm stream bi cr = .ok (.unchanged stream) := by
  have hlook : pyLookup (teamBoards cfg) nm = none := by
    rw [teamBoards, pyDict_lookup_eq_none]
    intro p hp
    intro hcontra
    exact hnm (hcontra ▸ (List.of_mem_zip hp).1)
  have hgb : get_board cfg (some nm) bi = none := by
    simp [get_board, hlook]
  refine ⟨hgb, ?_⟩
  unfold filter_stream
  by_cases hfn : fn = "ticket.html"
  · simp only [hfn, ne_eq, not_true_eq_false, if_false]
    cases hperm : (!t.tExists || !hasPerm) with
    | true => simp [hperm]
    | false =>
      simp only [hperm, Bool.false_eq_true, if_false]
      rw [ht, hgb]
  · simp [hfn]

/-- C9 witness at a concrete fixture: team `beta` is not configured. -/
theorem C9_witness :
    get_board cfgA (some "beta") respMatch = none ∧
    filter_stream cfgA "ticket.html" (some { tickA with fields := [("team", "beta")] })
      true (0 : Nat) respMatch { ReplyCode := 100 } = .ok (.unchanged 0) :=
  C9_theorem cfgA "beta" (by decide) { tickA with fields := [("team", "beta")] }
    (by decide) "ticket.html" true 0 respMatch { ReplyCode := 100 }

/-- `get_board` depends on the configuration only through the zipped
team-to-board mapping, the lane position and the card-type name list. -/
theorem get_board_congr (cfg cfg' : Config)
    (h1 : teamBoards cfg = teamBoards cfg')
    (h2 : cfg.kanban_lane_position = cfg'.kanban_lane_position)
    (h3 : cfg.kanban_card_type = cfg'.kanban_card_type) :
    ∀ (nm : Option String) (rsp : BIResp),
      get_board cfg nm rsp = get_board cfg' nm rsp := by
  intro nm rsp
  have hpi : parse_info cfg = parse_info cfg' := by
    funext d
    unfold parse_info
    rw [h2, h3]
  have hbi : Board.init cfg = Board.init cfg' := by
    funext n r
    unfold Board.init
    rw [h1, hpi]
  unfold get_board
  rw [h1, hbi]

/-- `create_card` depends on the configuration only through the zipped
priority mapping, the priority field name, the ticket path and the base
URL. -/
theorem create_card_congr (cfg cfg' : Config)
    (h1 : prioritiesMap cfg = prioritiesMap cfg')
    (h2 : cfg.trac_priority_field = cfg'.trac_priority_field)
    (h3 : cfg.trac_path_ticket = cfg'.trac_path_ticket)
    (h4 : cfg.trac_base_url = cfg'.trac_base_url) :
    ∀ t : Ticket, create_card cfg t = create_card cfg' t := by
  intro t
  unfold create_card
  rw [h1, h2, h3, h4]

/-- C10: both configuration mappings are Python `dict(zip(...))`: (i) lookup
returns the value of the LAST pair carrying the key, so a duplicated key in
the first list silently resolves to the last paired value; (ii) `zip`
truncates to the shorter list, so the operations using the mappings
(`get_board`, `create_card`) are unchanged when both lists are truncated to
their common length — the trailing entries of the longer list are silently
ignored and nothing checks lengths or duplicates. -/
theorem C10_theorem (cfg : Config) (k k' : String) :
    pyLookup (teamBoards cfg) k
      = ((cfg.trac_teams.zip cfg.kanban_boards).reverse.find?
          (fun p => p.1 = k)).map (fun p => p.2) ∧
    pyLookup (prioritiesMap cfg) k'
      = ((cfg.trac_priorities.zip cfg.kanban_priorities).reverse.find?
          (fun p => p.1 = k')).map (fun p => p.2) ∧
    (∀ (nm : Option String) (rsp : BIResp),
      get_board
        { cfg with
          trac_teams :=
            cfg.trac_teams.take (min cfg.trac_teams.length cfg.kanban_boards.length)
          kanban_boards :=
            cfg.kanban_boards.take (min cfg.trac_teams.length cfg.kanban_boards.length) }
        nm rsp
      = get_board cfg nm rsp) ∧
    (∀ t : Ticket,
      create_card
        { cfg with
          trac_priorities :=
            cfg.trac_priorities.take
              (min cfg.trac_priorities.length cfg.kanban_priorities.length)
          kanban_priorities :=
            cfg.kanban_priorities.take
              (min cfg.trac_priorities.length cfg.kanban_priorities.length) }
        t
      = create_card cfg t) := by
  have htb : teamBoards
      { cfg with
        trac_teams :=
          cfg.trac_teams.take (min cfg.trac_teams.length cfg.kanban_boards.length)
        kanban_boards :=
          cfg.kanban_boards.take (min cfg.trac_teams.length cfg.kanban_boards.length) }
      = teamBoards cfg := by
    unfold teamBoards
    rw [zip_take_min]
  have hpm : prioritiesMap
      { cfg with
        trac_priorities :=
          cfg.trac_priorities.take
            (min cfg.trac_priorities.length cfg.kanban_priorities.length)
        kanban_priorities :=
          cfg.kanban_priorities.take
            (min cfg.trac_priorities.length cfg.kanban_priorities.length) }
      = prioritiesMap cfg := by
    unfold prioritiesMap
    rw [zip_take_min]
  refine ⟨by rw [teamBoards, pyDict_lookup], by rw [prioritiesMap, pyDict_lookup],
    ?_, ?_⟩
  · intro nm rsp
    exact get_board_congr _ cfg htb rfl rfl nm rsp
  · intro t
    exact create_card_congr _ cfg hpm rfl rfl rfl t

/-- C6 counterexample: with the ordinary configured path `/kanban`, the
request path `"/kanban/7\n"` is accepted with a truthy result (Python's `$`
also matches just before a final newline), although it is not exactly
`<kanban_path>/<digits>`. -/
theorem C6_counterexample :
    match_request cfgA "/kanban/7\n" = .ok (some "7") ∧
    pyTruthy (some "7") = true ∧
    ¬ ∃ ds : String, ds ≠ "" ∧ ds.data.all Char.isDigit = true ∧
      "/kanban/7\n" = cfgA.trac_path_kanban ++ "/" ++ ds := by
  refine ⟨rfl, rfl, ?_⟩
  rintro ⟨ds, -, hdig, heq⟩
  have hdata : ("/kanban/7\n" : String).data
      = (cfgA.trac_path_kanban ++ "/" ++ ds).data := congrArg String.data heq
  rw [String.data_append, String.data_append] at hdata
  have hbase : cfgA.trac_path_kanban.data = "/kanban".data := rfl
  rw [hbase] at hdata
  have hdrop := congrArg
    (List.drop (("/kanban".data ++ "/".data : List Char).length)) hdata
  rw [List.drop_left] at hdrop
  have hds : ds.data = ['7', '\n'] := by
    rw [← hdrop]
    rfl
  rw [hds] at hdig
  exact absurd hdig (by decide)

/-- C6 (amended): provided the configured kanban path contains no
regex-special character (the path is spliced into the route pattern
unescaped), `match_request` returns a truthy value exactly when the request
path is `<kanban_path>/<one or more digits>` optionally followed by ONE
trailing newline — Python's `$` also accepts the position before a final
newline, so "exactly `<kanban_path>/<digits>`" is not quite achieved. -/
theorem C6_theorem (cfg : Config) (p : String)
    (h : ∀ c ∈ cfg.trac_path_kanban.data, ordChar c = true) :
    (∃ ds : String, match_request cfg p = .ok (some ds) ∧ pyTruthy (some ds) = true)
    ↔ (∃ ds : String, ds ≠ "" ∧ ds.data.all Char.isDigit = true ∧
        (p = cfg.trac_path_kanban ++ "/" ++ ds ∨
         p = cfg.trac_path_kanban ++ "/" ++ ds ++ "\n")) := by
  have hroute := parse_ticket_id_route cfg p h
  have hmr_eq : match_request cfg p = parse_ticket_id cfg p := rfl
  constructor
  · rintro ⟨ds, hmr, -⟩
    rw [hmr_eq, hroute] at hmr
    by_cases hcond : (p.data.take (cfg.trac_path_kanban.data ++ ['/']).length
          = cfg.trac_path_kanban.data ++ ['/'])
        ∧ digitAt p.data (cfg.trac_path_kanban.data ++ ['/']).length = true
        ∧ atEol p.data
            (runEnd p.data (cfg.trac_path_kanban.data ++ ['/']).length) = true
    · rw [if_pos hcond] at hmr
      obtain ⟨h1, h2, h3⟩ := hcond
      have hds : String.mk ((p.data.drop
            (cfg.trac_path_kanban.data ++ ['/']).length).takeWhile Char.isDigit)
          = ds := Option.some.inj (Except.ok.inj hmr)
      obtain ⟨c, hgc, hcd⟩ : ∃ c,
          p.data.get? (cfg.trac_path_kanban.data ++ ['/']).length = some c
          ∧ c.isDigit = true := by
        unfold digitAt at h2
        cases hg : p.data.get? (cfg.trac_path_kanban.data ++ ['/']).length with
        | none => rw [hg] at h2; exact absurd h2 (by simp)
        | some c => rw [hg] at h2; exact ⟨c, rfl, h2⟩
      have hshape := route_shape p.data (cfg.trac_path_kanban.data ++ ['/'])
        h1 c hgc h3
      have htw_ne : (p.data.drop
          (cfg.trac_path_kanban.data ++ ['/']).length).takeWhile Char.isDigit
          ≠ [] := by
        rw [drop_get_cons p.data _ c hgc, List.takeWhile_cons, if_pos hcd]
        simp
      refine ⟨ds, ?_, ?_, ?_⟩
      · rw [← hds]
        intro hcon
        exact htw_ne (congrArg String.data hcon)
      · rw [← hds]
        exact all_takeWhile Char.isDigit _
      · rcases hshape with hsh | hsh
        · left
          apply String.ext
          rw [String.data_append, String.data_append, ← hds]
          rw [show ("/" : String).data = ['/'] from rfl]
          exact hsh
        · right
          apply String.ext
          rw [String.data_append, String.data_append, String.data_append, ← hds]
          rw [show ("/" : String).data = ['/'] from rfl,
            show ("\n" : String).data = ['\n'] from rfl]
          exact hsh
    · rw [if_neg hcond] at hmr
      exact absurd (Except.ok.inj hmr) (by simp)
  · rintro ⟨ds, hne, hdig, hcase⟩
    have hne' : ds.data ≠ [] := by
      intro hcon
      apply hne
      apply String.ext
      rw [hcon]
    have hconds : p.data.take (cfg.trac_path_kanban.data ++ ['/']).length
          = cfg.trac_path_kanban.data ++ ['/']
        ∧ digitAt p.data (cfg.trac_path_kanban.data ++ ['/']).length = true
        ∧ atEol p.data
            (runEnd p.data (cfg.trac_path_kanban.data ++ ['/']).length) = true
        ∧ (p.data.drop
            (cfg.trac_path_kanban.data ++ ['/']).length).takeWhile Char.isDigit
          = ds.data := by
      rcases hcase with hp | hp
      · refine route_conds p.data (cfg.trac_path_kanban.data ++ ['/']) ds.data []
          hne' hdig (Or.inl rfl) ?_
        rw [hp, List.append_nil, String.data_append, String.data_append]
      · refine route_conds p.data (cfg.trac_path_kanban.data ++ ['/']) ds.data
          ['\n'] hne' hdig (Or.inr rfl) ?_
        rw [hp, String.data_append, String.data_append, String.data_append]
    obtain ⟨h1, h2, h3, htw⟩ := hconds
    have hie : ds.isEmpty = false := by
      cases hie : ds.isEmpty
      · rfl
      · exact absurd ((String.isEmpty_iff ds).mp hie) hne
    refine ⟨ds, ?_, ?_⟩
    · rw [hmr_eq, hroute, if_pos ⟨h1, h2, h3⟩, htw]
    · simp [pyTruthy, hie]

/-- C6 witness for the amended theorem, at the concrete fixture. -/
theorem C6_witness :
    ∃ ds : String, match_request cfgA "/kanban/12" = .ok (some ds)
      ∧ pyTruthy (some ds) = true :=
  (C6_theorem cfgA "/kanban/12" (by decide)).mpr
    ⟨"12", by decide, by decide, Or.inl (by decide)⟩

end Trac2Kanban
